import Mathlib

/-!
Shallow embedding of the review-extraction core of the ECom-Intel
repository (src/firecrawl_client.py and src/review_analyzer.py).

Python strings are modelled as lists of characters (code points) and
Python floats as rationals: every arithmetic step the claims touch
(divide by 20, multiply by 5, clamp, count/total percentages) is exact,
and round() is modelled as exact half-to-even decimal rounding.  Review
records (Python dicts) are a structure whose possibly-missing keys are
Option fields.  The external collaborators (the sentiment LLM and the
insight LLM) are opaque oracles passed in as functions returning Option,
where none models the except branch of the corresponding try block.

The regular-expression searches of firecrawl_client.py are hand-compiled
to deterministic matchers.  For each of the patterns involved the greedy
and lazy quantifiers admit exactly one viable backtracking outcome
(documented at each matcher), except the trailing [a-z]+ of the
"Name said" reviewer pattern, whose backtracking is implemented
explicitly.  The segmenter feeds these matchers single lines produced by
content.split with a newline separator, so the matched text never
contains a newline and the dollar anchor means end of line.
-/

abbrev PyStr := List Char

/-- Python str.strip (the whitespace classes the scraped lines use). -/
def pystrip (s : PyStr) : PyStr :=
  ((s.dropWhile Char.isWhitespace).reverse.dropWhile Char.isWhitespace).reverse

/-- Python str.lower (ASCII range, which is all the keyword tables use). -/
def pylower (s : PyStr) : PyStr := s.map Char.toLower

/-- pat is a prefix of s. -/
def startsWith : PyStr → PyStr → Bool
  | [], _ => true
  | _ :: _, [] => false
  | c :: cs, d :: ds => c == d && startsWith cs ds

/-- Python substring containment: pat in s. -/
def hasSub (pat : PyStr) : PyStr → Bool
  | [] => startsWith pat []
  | s@(_ :: t) => startsWith pat s || hasSub pat t

/-- Helper of wordCount: the flag says whether a word is currently open. -/
def wcAux : Bool → PyStr → Nat
  | _, [] => 0
  | inw, c :: t =>
    if c.isWhitespace then wcAux false t
    else (if inw then 0 else 1) + wcAux true t

/-- Number of whitespace-separated words: Python len(text.split()). -/
def wordCount (s : PyStr) : Nat := wcAux false s

/-- Python content.split on a newline separator (keeps empty pieces). -/
def splitOnNl : PyStr → List PyStr
  | [] => [[]]
  | c :: t =>
    if c = '\n' then [] :: splitOnNl t
    else
      match splitOnNl t with
      | h :: r => (c :: h) :: r
      | [] => [[c]]

/-- The review_indicators keyword table of FirecrawlClient._is_likely_review. -/
def review_indicators : List PyStr :=
  ["great".data, "good".data, "bad".data, "excellent".data, "poor".data,
   "love".data, "hate".data, "recommend".data, "quality".data, "price".data,
   "service".data, "delivery".data, "package".data, "product".data,
   "item".data, "worked".data, "didn't work".data]

/-- How many keyword-table members occur as substrings of the lowercased
text (each member counted once, as the source counts indicators). -/
def indicator_count (text : PyStr) : Nat :=
  (review_indicators.filter (fun ind => hasSub ind (pylower text))).length

/-- FirecrawlClient._is_likely_review. -/
def _is_likely_review (text : PyStr) : Bool :=
  let cnt := indicator_count text
  let wc := wordCount text
  (decide (2 ≤ cnt) && decide (10 ≤ wc)) || (decide (1 ≤ cnt) && decide (20 ≤ wc))

/-- Value of an ASCII digit run. -/
def digitsVal (ds : PyStr) : Nat := ds.foldl (fun a c => a * 10 + (c.toNat - 48)) 0

/-- A decimal numeric token at the head of s: a maximal digit run with an
optional dot and maximal fractional digit run (the regex for a number used
throughout firecrawl_client.py; both greedy runs are forced, since after
fewer digits the next character is a digit and can match no continuation).
Returns (token, rest). -/
def numTokenAt (s : PyStr) : Option (PyStr × PyStr) :=
  let (ds, r1) := s.span Char.isDigit
  if ds.isEmpty then none
  else
    match r1 with
    | '.' :: r2 =>
      let (fs, r3) := r2.span Char.isDigit
      if fs.isEmpty then some (ds, r1) else some (ds ++ '.' :: fs, r3)
    | _ => some (ds, r1)

/-- Leftmost numeric token of s: the re.search in _normalize_rating. -/
def firstNumericToken : PyStr → Option PyStr
  | [] => none
  | s@(_ :: t) =>
    match numTokenAt s with
    | some (tok, _) => some tok
    | none => firstNumericToken t

/-- Python float() of a numeric token (exact, as a rational). -/
def tokenToRat (tok : PyStr) : Rat :=
  let (ip, r) := tok.span Char.isDigit
  match r with
  | '.' :: fp => (digitsVal ip : Rat) + (digitsVal fp : Rat) / (10 : Rat) ^ fp.length
  | _ => (digitsVal ip : Rat)

/-- Python max of two numbers: the larger, the first argument on ties. -/
def pymax (a b : Rat) : Rat := if b > a then b else a

/-- Python min of two numbers: the smaller, the first argument on ties. -/
def pymin (a b : Rat) : Rat := if b < a then b else a

/-- FirecrawlClient._normalize_rating. -/
def _normalize_rating (rating : PyStr) : Option Rat :=
  match firstNumericToken rating with
  | none => none
  | some tok =>
    let v := tokenToRat tok
    let v2 := if v > 5 then v / 20 else if v ≤ 1 then v * 5 else v
    some (pymax 1 (pymin 5 v2))

def isUpperAZ (c : Char) : Bool := decide ('A' ≤ c) && decide (c ≤ 'Z')

def isLowerAZ (c : Char) : Bool := decide ('a' ≤ c) && decide (c ≤ 'z')

/-- A capitalized name pair (upper, lowercase run, whitespace run, upper,
lowercase run) at the head of s, all runs greedy-maximal (forced when
nothing follows the capture).  Returns (capture, rest). -/
def tryNamePair (s : PyStr) : Option (PyStr × PyStr) :=
  match s with
  | c1 :: t1 =>
    if isUpperAZ c1 then
      let (l1, r1) := t1.span isLowerAZ
      if l1.isEmpty then none
      else
        let (wsp, r2) := r1.span Char.isWhitespace
        if wsp.isEmpty then none
        else
          match r2 with
          | c2 :: t2 =>
            if isUpperAZ c2 then
              let (l2, r3) := t2.span isLowerAZ
              if l2.isEmpty then none
              else some (c1 :: l1 ++ wsp ++ c2 :: l2, r3)
            else none
          | [] => none
    else none
  | [] => none

/-- Reviewer pattern "by Name Name": leftmost occurrence. -/
def searchByName : PyStr → Option PyStr
  | [] => none
  | s@(_ :: rest) =>
    (match s with
     | 'b' :: 'y' :: c :: t =>
       if c.isWhitespace then
         match tryNamePair ((c :: t).dropWhile Char.isWhitespace) with
         | some (nm, _) => some nm
         | none => none
       else none
     | _ => none) <|> searchByName rest

/-- Reviewer pattern "- Name Name": leftmost occurrence. -/
def searchDashName : PyStr → Option PyStr
  | [] => none
  | s@(_ :: rest) =>
    (match s with
     | '-' :: t =>
       match tryNamePair (t.dropWhile Char.isWhitespace) with
       | some (nm, _) => some nm
       | none => none
     | _ => none) <|> searchDashName rest

/-- Does "said" follow here, after optional whitespace? -/
def saidAfter (rest : PyStr) : Bool :=
  startsWith ("said".data) (rest.dropWhile Char.isWhitespace)

/-- Greedy backtracking of the final lowercase run of the "Name said"
pattern: the longest prefix of l2 whose remainder is followed (after
whitespace) by "said". -/
def shrinkToSaid (l2 rest : PyStr) : Option PyStr :=
  if h : l2 = [] then none
  else if saidAfter rest then some l2
  else shrinkToSaid l2.dropLast (l2.getLast h :: rest)
termination_by l2.length
decreasing_by
  have hl : 0 < l2.length := List.length_pos.mpr h
  simp [List.length_dropLast]
  omega

/-- Reviewer pattern "Name Name said": leftmost occurrence; only the final
lowercase run backtracks (every other quantifier is forced). -/
def searchSaidName : PyStr → Option PyStr
  | [] => none
  | s@(_ :: rest) =>
    (match s with
     | c1 :: t1 =>
       if isUpperAZ c1 then
         let (l1, r1) := t1.span isLowerAZ
         if l1.isEmpty then none
         else
           let (wsp, r2) := r1.span Char.isWhitespace
           if wsp.isEmpty then none
           else
             match r2 with
             | c2 :: t2 =>
               if isUpperAZ c2 then
                 let (l2, r3) := t2.span isLowerAZ
                 if l2.isEmpty then none
                 else
                   match shrinkToSaid l2 r3 with
                   | some l2k => some (c1 :: l1 ++ wsp ++ c2 :: l2k)
                   | none => none
               else none
             | [] => none
       else none
     | [] => none) <|> searchSaidName rest

/-- FirecrawlClient._extract_reviewer_name: three patterns in order. -/
def _extract_reviewer_name (review_text : PyStr) : Option PyStr :=
  match searchByName review_text with
  | some nm => some nm
  | none =>
    match searchDashName review_text with
    | some nm => some nm
    | none => searchSaidName review_text

/-- Exactly n ASCII digits (more may follow; the regex braces quantifier
does not look past them). -/
def takeExactDigits : Nat → PyStr → Option (PyStr × PyStr)
  | 0, s => some ([], s)
  | n + 1, c :: t =>
    if c.isDigit then
      match takeExactDigits n t with
      | some (ds, r) => some (c :: ds, r)
      | none => none
    else none
  | _ + 1, [] => none

/-- Numeric date day-sep-day-sep-year at the head, with fixed run lengths
a and b for the two short fields. -/
def tryNumericDateAB (sep : Char) (a b : Nat) (s : PyStr) : Option PyStr :=
  match takeExactDigits a s with
  | none => none
  | some (d1, r1) =>
    match r1 with
    | c :: r2 =>
      if c = sep then
        match takeExactDigits b r2 with
        | none => none
        | some (d2, r3) =>
          match r3 with
          | c2 :: r4 =>
            if c2 = sep then
              match takeExactDigits 4 r4 with
              | none => none
              | some (d3, _) => some (d1 ++ c :: d2 ++ c2 :: d3)
            else none
          | [] => none
      else none
    | [] => none

/-- The one-or-two-digit quantifiers backtrack greedily: two digits
preferred, the second field varying fastest. -/
def tryNumericDate (sep : Char) (s : PyStr) : Option PyStr :=
  match tryNumericDateAB sep 2 2 s with
  | some cap => some cap
  | none =>
    match tryNumericDateAB sep 2 1 s with
    | some cap => some cap
    | none =>
      match tryNumericDateAB sep 1 2 s with
      | some cap => some cap
      | none => tryNumericDateAB sep 1 1 s

/-- Leftmost search of a head matcher returning one capture. -/
def searchOpt (f : PyStr → Option PyStr) : PyStr → Option PyStr
  | [] => f []
  | s@(_ :: rest) =>
    match f s with
    | some cap => some cap
    | none => searchOpt f rest

def monthNames : List PyStr :=
  ["January".data, "February".data, "March".data, "April".data, "May".data,
   "June".data, "July".data, "August".data, "September".data, "October".data,
   "November".data, "December".data]

/-- Case-insensitive literal match at the head; some rest on success. -/
def matchCI : PyStr → PyStr → Option PyStr
  | [], s => some s
  | _ :: _, [] => none
  | c :: cs, d :: ds => if c.toLower = d.toLower then matchCI cs ds else none

/-- First month-name alternative matching case-insensitively at the head:
(the matched input slice, rest). -/
def tryMonthAux : List PyStr → PyStr → Option (PyStr × PyStr)
  | [], _ => none
  | m :: ms, s =>
    match matchCI m s with
    | some r => some (s.take m.length, r)
    | none => tryMonthAux ms s

def tryMonth (s : PyStr) : Option (PyStr × PyStr) := tryMonthAux monthNames s

/-- Whitespace run (at least one) then a four-digit year. -/
def wsThenYear (s : PyStr) : Bool :=
  let (wsp, r) := s.span Char.isWhitespace
  if wsp.isEmpty then false else (takeExactDigits 4 r).isSome

/-- Optional comma (greedy), whitespace, year. -/
def commaWsYear (s : PyStr) : Bool :=
  (match s with
   | ',' :: t => wsThenYear t
   | _ => false) || wsThenYear s

/-- Month-name-first date at the head; the capture group holds only the
month name as it stands in the input.  The day quantifier backtracks
greedily (two digits, then one). -/
def tryMonthFirstDate (s : PyStr) : Option PyStr :=
  match tryMonth s with
  | none => none
  | some (cap, r1) =>
    let (wsp, r2) := r1.span Char.isWhitespace
    if wsp.isEmpty then none
    else
      match takeExactDigits 2 r2 with
      | some (_, r3) =>
        if commaWsYear r3 then some cap
        else
          match takeExactDigits 1 r2 with
          | some (_, r3b) => if commaWsYear r3b then some cap else none
          | none => none
      | none =>
        match takeExactDigits 1 r2 with
        | some (_, r3b) => if commaWsYear r3b then some cap else none
        | none => none

/-- Day month-name year date at the head; the capture is the whole match. -/
def tryDayMonthDateA (a : Nat) (s : PyStr) : Option PyStr :=
  match takeExactDigits a s with
  | none => none
  | some (d1, r1) =>
    let (w1, r2) := r1.span Char.isWhitespace
    if w1.isEmpty then none
    else
      match tryMonth r2 with
      | none => none
      | some (mcap, r3) =>
        let (w2, r4) := r3.span Char.isWhitespace
        if w2.isEmpty then none
        else
          match takeExactDigits 4 r4 with
          | none => none
          | some (y, _) => some (d1 ++ w1 ++ mcap ++ w2 ++ y)

def tryDayMonthDate (s : PyStr) : Option PyStr :=
  match tryDayMonthDateA 2 s with
  | some cap => some cap
  | none => tryDayMonthDateA 1 s

/-- FirecrawlClient._extract_review_date: four pattern families in order. -/
def _extract_review_date (review_text : PyStr) : Option PyStr :=
  match searchOpt (tryNumericDate '/') review_text with
  | some cap => some cap
  | none =>
    match searchOpt (tryNumericDate '-') review_text with
    | some cap => some cap
    | none =>
      match searchOpt tryMonthFirstDate review_text with
      | some cap => some cap
      | none => searchOpt tryDayMonthDate review_text

/-- Rating pattern 1 at the head: number, whitespace, star with optional
trailing s (greedy; the lazy tail always succeeds, so nothing before the
capture ever backtracks).  Returns (group 1, rest after the marker). -/
def tryNumStars (s : PyStr) : Option (PyStr × PyStr) :=
  match numTokenAt s with
  | none => none
  | some (tok, r1) =>
    let r2 := r1.dropWhile Char.isWhitespace
    match matchCI ("star".data) r2 with
    | none => none
    | some r3 =>
      match r3 with
      | c :: t => if c.toLower = 's' then some (tok, t) else some (tok, r3)
      | [] => some (tok, r3)

/-- The lazy group before a lookahead: the shortest prefix whose remainder
satisfies the lookahead, or everything (the dollar alternative; lines hold
no newline, so the any-character class never blocks). -/
def lazyUpTo (look : PyStr → Bool) : PyStr → PyStr
  | [] => []
  | s@(c :: t) => if look s then [] else c :: lazyUpTo look t

/-- Leftmost search of rating pattern 1; the second capture runs to the
next number-stars marker or the end of the line. -/
def search1 : PyStr → Option (PyStr × PyStr)
  | [] => none
  | s@(_ :: rest) =>
    match tryNumStars s with
    | some (g1, r) =>
      some (g1, lazyUpTo (fun u => (tryNumStars u).isSome) (r.dropWhile Char.isWhitespace))
    | none => search1 rest

/-- Rating pattern 2 at the head: the word rating (case-insensitive), a
greedy colon-or-whitespace run, a number.  Returns (group 1, rest). -/
def tryRatingColon (s : PyStr) : Option (PyStr × PyStr) :=
  match matchCI ("rating".data) s with
  | none => none
  | some r1 =>
    let r2 := r1.dropWhile (fun c => c == ':' || c.isWhitespace)
    numTokenAt r2

/-- Leftmost search of rating pattern 2.  Unlike pattern 1 there is no
whitespace consumer between group 1 and the lazy second capture (the
pattern has a lazy any-character run, which stays empty on one line), so
the second capture can begin with, or consist only of, whitespace. -/
def search2 : PyStr → Option (PyStr × PyStr)
  | [] => none
  | s@(_ :: rest) =>
    match tryRatingColon s with
    | some (g1, r) =>
      some (g1, lazyUpTo (fun u => (tryRatingColon u).isSome) r)
    | none => search2 rest

/-- Rating pattern 3 at the head: integer, slash, the digit five. -/
def trySlashFive (s : PyStr) : Option (PyStr × PyStr) :=
  let (ds, r1) := s.span Char.isDigit
  if ds.isEmpty then none
  else
    match r1 with
    | '/' :: '5' :: r2 => some (ds, r2)
    | _ => none

/-- Leftmost search of rating pattern 3. -/
def search3 : PyStr → Option (PyStr × PyStr)
  | [] => none
  | s@(_ :: rest) =>
    match trySlashFive s with
    | some (g1, r) =>
      some (g1, lazyUpTo (fun u => (trySlashFive u).isSome) (r.dropWhile Char.isWhitespace))
    | none => search3 rest

def dropMoreStars : Nat → PyStr → PyStr
  | 0, s => s
  | n + 1, s =>
    match s with
    | '★' :: t => dropMoreStars n t
    | _ => s

/-- Rating pattern 4 at the head: one to five star glyphs (greedy). -/
def tryStarGlyphs (s : PyStr) : Option PyStr :=
  match s with
  | '★' :: t => some (dropMoreStars 4 t)
  | _ => none

/-- Leftmost search of rating pattern 4; this pattern has a single group,
the text after the glyphs. -/
def search4 : PyStr → Option PyStr
  | [] => none
  | s@(_ :: rest) =>
    match tryStarGlyphs s with
    | some r =>
      some (lazyUpTo (fun u => (tryStarGlyphs u).isSome) (r.dropWhile Char.isWhitespace))
    | none => search4 rest

/-- A line's rating match: group 1 is the raw rating capture, group 2 the
trailing-text capture when the winning pattern has two groups (patterns 1
to 3); pattern 4 has a single group. -/
structure RatingMatch where
  group1 : PyStr
  group2 : Option PyStr
deriving DecidableEq

/-- The ordered review_patterns scan of extract_reviews_from_content: the
first pattern family with a match anywhere in the line wins. -/
def findRatingMatch (line : PyStr) : Option RatingMatch :=
  match search1 line with
  | some (g1, g2) => some { group1 := g1, group2 := some g2 }
  | none =>
    match search2 line with
    | some (g1, g2) => some { group1 := g1, group2 := some g2 }
    | none =>
      match search3 line with
      | some (g1, g2) => some { group1 := g1, group2 := some g2 }
      | none =>
        match search4 line with
        | some g1 => some { group1 := g1, group2 := none }
        | none => none

/-- One extracted review record.  The sentiment fields are absent until
ReviewAnalyzer.analyze_reviews adds them in place. -/
structure ReviewRecord where
  review_text : PyStr
  rating : Option Rat
  reviewer_name : Option PyStr
  review_date : Option PyStr
  source_url : PyStr
  sentiment_label : Option PyStr := none
  sentiment_score : Option Rat := none
deriving DecidableEq

/-- The record built when the segmenter closes a candidate: the dict
literal of extract_reviews_from_content. -/
def emitRecord (buf ratingTok url : PyStr) : ReviewRecord :=
  { review_text := pystrip buf
    rating := _normalize_rating ratingTok
    reviewer_name := _extract_reviewer_name buf
    review_date := _extract_review_date buf
    source_url := url }

/-- The line loop of extract_reviews_from_content: buf is current_review
and tok is current_rating (the empty list standing for Python None or the
empty string, which the source only ever tests for truthiness). -/
def segLoop (url : PyStr) : List PyStr → PyStr → PyStr → List ReviewRecord
  | [], buf, tok =>
    if buf ≠ [] ∧ tok ≠ [] then [emitRecord buf tok url] else []
  | rawLine :: rest, buf, tok =>
    let line := pystrip rawLine
    if line.length < 10 then segLoop url rest buf tok
    else
      match findRatingMatch line with
      | some m =>
        let emitted := if buf ≠ [] ∧ tok ≠ [] then [emitRecord buf tok url] else []
        let newBuf := match m.group2 with
                      | some g2 => g2
                      | none => line
        emitted ++ segLoop url rest newBuf m.group1
      | none =>
        if buf ≠ [] then segLoop url rest (buf ++ ' ' :: line) tok
        else if _is_likely_review line then segLoop url rest line tok
        else segLoop url rest buf tok

/-- FirecrawlClient.extract_reviews_from_content. -/
def extract_reviews_from_content (content source_url : PyStr) : List ReviewRecord :=
  segLoop source_url (splitOnNl content) [] []

/-- The deduplication key: lowercase of the first hundred characters of
the trimmed review text. -/
def dedupKey (r : ReviewRecord) : PyStr := pylower ((pystrip r.review_text).take 100)

/-- The deduplication loop at the end of get_product_reviews; seen is the
seen_texts set, dedupKey the text_key computation. -/
def dedupLoop : List ReviewRecord → List PyStr → List ReviewRecord
  | [], _ => []
  | r :: rest, seen =>
    if pystrip r.review_text ≠ [] ∧ (pystrip r.review_text).length > 20 then
      if dedupKey r ∈ seen then dedupLoop rest seen
      else r :: dedupLoop rest (dedupKey r :: seen)
    else dedupLoop rest seen

/-- The Deduplicator: the unique_reviews pass of get_product_reviews. -/
def deduplicate (reviews : List ReviewRecord) : List ReviewRecord :=
  dedupLoop reviews []

/-- What the sentiment oracle yields on success. -/
structure SentimentResult where
  sentiment_label : PyStr
  sentiment_score : Rat
deriving DecidableEq

/-- What the insight oracle yields on success. -/
structure Insights where
  key_insights : List PyStr
  pros : List PyStr
  cons : List PyStr
  recommendations : List PyStr
deriving DecidableEq

structure SentimentDistribution where
  positive : Rat
  negative : Rat
  neutral : Rat
deriving DecidableEq

structure RatingSummary where
  five_star : Rat
  four_star : Rat
  three_star : Rat
  two_star : Rat
  one_star : Rat
  total_ratings : Nat
deriving DecidableEq

/-- ReviewAnalyzer.analyze_reviews result; rating_summary is none when the
source returns the empty dict. -/
structure AnalysisResult where
  total_reviews : Nat
  average_rating : Rat
  sentiment_distribution : SentimentDistribution
  key_insights : List PyStr
  pros : List PyStr
  cons : List PyStr
  rating_summary : Option RatingSummary
  recommendations : List PyStr
deriving DecidableEq

/-- Round to the nearest integer, ties to even: Python round(). -/
def roundHalfEven (q : Rat) : Int :=
  if q - ((⌊q⌋ : Int) : Rat) < 1 / 2 then ⌊q⌋
  else if q - ((⌊q⌋ : Int) : Rat) > 1 / 2 then ⌊q⌋ + 1
  else if ⌊q⌋ % 2 = 0 then ⌊q⌋ else ⌊q⌋ + 1

/-- Python round(q, n): half-to-even at n decimal digits, exact over the
rationals. -/
def pyround (q : Rat) (n : Nat) : Rat :=
  (roundHalfEven (q * (10 : Rat) ^ n) : Rat) / (10 : Rat) ^ n

/-- Python int(): truncation toward zero. -/
def pyint (q : Rat) : Int := if q < 0 then ⌈q⌉ else ⌊q⌋

/-- ReviewAnalyzer._analyze_sentiment, the LLM call as an oracle; none
models the except branch (neutral with score one half). -/
def _analyze_sentiment (classify : PyStr → Option SentimentResult)
    (text : PyStr) : SentimentResult :=
  match classify text with
  | some r => r
  | none => { sentiment_label := "neutral".data, sentiment_score := 1 / 2 }

/-- ReviewAnalyzer._generate_insights, the LLM call as an oracle over the
first fifty records; none models the except branch. -/
def _generate_insights (oracle : List ReviewRecord → Option Insights)
    (reviews : List ReviewRecord) : Insights :=
  match oracle (reviews.take 50) with
  | some i => i
  | none =>
    { key_insights := ["Unable to generate insights automatically".data]
      pros := [], cons := [], recommendations := [] }

/-- ReviewAnalyzer._calculate_sentiment_distribution. -/
def _calculate_sentiment_distribution (reviews : List ReviewRecord) :
    SentimentDistribution :=
  let sentiments := reviews.map (fun r => r.sentiment_label.getD ("neutral".data))
  let total := sentiments.length
  if 0 < total then
    { positive := pyround (((sentiments.count ("positive".data) : Rat) / (total : Rat)) * 100) 1
      negative := pyround (((sentiments.count ("negative".data) : Rat) / (total : Rat)) * 100) 1
      neutral := pyround (((sentiments.count ("neutral".data) : Rat) / (total : Rat)) * 100) 1 }
  else { positive := 0, negative := 0, neutral := 0 }

/-- ReviewAnalyzer._calculate_rating_summary. -/
def _calculate_rating_summary (ratings : List Rat) : Option RatingSummary :=
  if ratings = [] then none
  else
    let ints := (ratings.filter (fun r => decide (r ≠ 0))).map pyint
    let total := ratings.length
    some
      { five_star := pyround (((ints.count 5 : Rat) / (total : Rat)) * 100) 1
        four_star := pyround (((ints.count 4 : Rat) / (total : Rat)) * 100) 1
        three_star := pyround (((ints.count 3 : Rat) / (total : Rat)) * 100) 1
        two_star := pyround (((ints.count 2 : Rat) / (total : Rat)) * 100) 1
        one_star := pyround (((ints.count 1 : Rat) / (total : Rat)) * 100) 1
        total_ratings := total }

/-- The in-place review.update of analyze_reviews: sets the two sentiment
keys, leaves every other key as it was. -/
def updateSentiment (classify : PyStr → Option SentimentResult)
    (r : ReviewRecord) : ReviewRecord :=
  let s := _analyze_sentiment classify r.review_text
  { r with sentiment_label := some s.sentiment_label
           sentiment_score := some s.sentiment_score }

/-- ReviewAnalyzer.analyze_reviews.  The second component of the pair is
the final state of the input record list (review.update mutates the input
dicts in place, so the caller's records carry the sentiment keys after the
call). -/
def analyze_reviews (classify : PyStr → Option SentimentResult)
    (insightOracle : List ReviewRecord → Option Insights)
    (reviews : List ReviewRecord) : AnalysisResult × List ReviewRecord :=
  if reviews = [] then
    ({ total_reviews := 0, average_rating := 0
       sentiment_distribution := { positive := 0, negative := 0, neutral := 0 }
       key_insights := [], pros := [], cons := []
       rating_summary := none, recommendations := [] }, reviews)
  else
    let analyzed := reviews.map (updateSentiment classify)
    let ratings := analyzed.filterMap (fun r => r.rating)
    let average_rating : Rat :=
      if ratings ≠ [] then ratings.sum / (ratings.length : Rat) else 0
    let ins := _generate_insights insightOracle analyzed
    ({ total_reviews := analyzed.length
       average_rating := pyround average_rating 2
       sentiment_distribution := _calculate_sentiment_distribution analyzed
       key_insights := ins.key_insights
       pros := ins.pros
       cons := ins.cons
       rating_summary := _calculate_rating_summary ratings
       recommendations := ins.recommendations }, analyzed)

/-- Python s[-n:] for positive n (the trailing slice used to state the
second half of the dedup prefix-collapse property). -/
def pyTakeLast (n : Nat) (s : PyStr) : PyStr := s.drop (s.length - n)

/-- A record carrying only review text, as concrete test data. -/
def mkTextRec (t : PyStr) : ReviewRecord :=
  { review_text := t, rating := none, reviewer_name := none,
    review_date := none, source_url := [] }

/-- The P5 input of the specification, joined with newlines. -/
def p5_content : PyStr :=
  "5 stars\nGreat product, love it, would recommend\n2 stars\nTerrible, broke immediately, waste of money".data

def p5_url : PyStr := "https://example.com/product".data

/-- A one-line page on which the lazy second capture of the Rating pattern
consists of whitespace only. -/
def c3_content : PyStr := "Rating: 4  Rating: 5 good".data

def c3_url : PyStr := "https://example.com/reviews".data

/-- Exactly twenty characters after trimming. -/
def rec20 : ReviewRecord := mkTextRec ("exactly twenty chars".data)

/-- Thirty characters after trimming. -/
def rec30 : ReviewRecord := mkTextRec ("thirty characters of review aa".data)

/-- Two records agreeing on the first 101 characters and differing at
position 102: same dedup key. -/
def c5_rec1 : ReviewRecord := mkTextRec (List.replicate 101 'a' ++ ['b'])

def c5_rec2 : ReviewRecord := mkTextRec (List.replicate 101 'a' ++ ['c'])

/-- Two records sharing their final fifty characters but with different
hundred-character prefixes. -/
def c5_rec3 : ReviewRecord := mkTextRec (List.replicate 60 'a' ++ List.replicate 50 'z')

def c5_rec4 : ReviewRecord := mkTextRec (List.replicate 60 'b' ++ List.replicate 50 'z')

/-- Ten words, exactly two of them keyword-table matches. -/
def accept_line : PyStr := "great quality one two three four five six seven eight".data

/-- The same keyword signal with nine words. -/
def reject_line : PyStr := "great quality one two three four five six seven".data

/-- A record without sentiment keys, as analyze_reviews receives it. -/
def c9_rec : ReviewRecord :=
  { review_text := "a decent little product".data, rating := some 4,
    reviewer_name := none, review_date := none, source_url := "u".data }

/-- A rated, positively labelled record for the aggregation witnesses. -/
def c6_rec : ReviewRecord :=
  { review_text := "nice".data, rating := some 4, reviewer_name := none,
    review_date := none, source_url := [],
    sentiment_label := some ("positive".data), sentiment_score := some 1 }

/-- A record with no rating at all. -/
def c7_rec : ReviewRecord := mkTextRec ("no rating attached here".data)

/-- The code of the deduplication loop on a cons cell, stated once for
rewriting. -/
theorem dedupLoop_cons (r : ReviewRecord) (rest : List ReviewRecord) (seen : List PyStr) :
    dedupLoop (r :: rest) seen =
      if pystrip r.review_text ≠ [] ∧ (pystrip r.review_text).length > 20 then
        if dedupKey r ∈ seen then dedupLoop rest seen
        else r :: dedupLoop rest (dedupKey r :: seen)
      else dedupLoop rest seen := rfl

/-- Every record the deduplication loop keeps passed the length filter. -/
theorem mem_dedupLoop_len {l : List ReviewRecord} {seen : List PyStr} {r : ReviewRecord}
    (hr : r ∈ dedupLoop l seen) :
    pystrip r.review_text ≠ [] ∧ (pystrip r.review_text).length > 20 := by
  induction l generalizing seen with
  | nil => simp [dedupLoop] at hr
  | cons a t ih =>
    rw [dedupLoop_cons] at hr
    by_cases hp : pystrip a.review_text ≠ [] ∧ (pystrip a.review_text).length > 20
    · rw [if_pos hp] at hr
      by_cases hk : dedupKey a ∈ seen
      · rw [if_pos hk] at hr; exact ih hr
      · rw [if_neg hk] at hr
        rcases List.mem_cons.mp hr with h1 | h1
        · subst h1; exact hp
        · exact ih h1
    · rw [if_neg hp] at hr; exact ih hr

/-- The keys of the loop's output are distinct and avoid the seen set. -/
theorem dedupLoop_keys (l : List ReviewRecord) (seen : List PyStr) :
    ((dedupLoop l seen).map dedupKey).Nodup ∧
      ∀ r ∈ dedupLoop l seen, dedupKey r ∉ seen := by
  induction l generalizing seen with
  | nil => simp [dedupLoop]
  | cons a t ih =>
    rw [dedupLoop_cons]
    by_cases hp : pystrip a.review_text ≠ [] ∧ (pystrip a.review_text).length > 20
    · rw [if_pos hp]
      by_cases hk : dedupKey a ∈ seen
      · rw [if_pos hk]; exact ih seen
      · rw [if_neg hk]
        refine ⟨?_, ?_⟩
        · rw [List.map_cons, List.nodup_cons]
          refine ⟨?_, (ih (dedupKey a :: seen)).1⟩
          intro hmem
          rcases List.mem_map.mp hmem with ⟨r, hr, hkey⟩
          exact (ih (dedupKey a :: seen)).2 r hr (hkey ▸ List.mem_cons_self _ _)
        · intro r hr
          rcases List.mem_cons.mp hr with h1 | h1
          · subst h1; exact hk
          · intro hmem
            exact (ih (dedupKey a :: seen)).2 r h1 (List.mem_cons_of_mem _ hmem)
    · rw [if_neg hp]; exact ih seen

/-- The loop fixes any list whose members pass the filter, have distinct
keys and have no key in the seen set. -/
theorem dedupLoop_fixed {l : List ReviewRecord} {seen : List PyStr}
    (hpass : ∀ r ∈ l, pystrip r.review_text ≠ [] ∧ (pystrip r.review_text).length > 20)
    (hnodup : (l.map dedupKey).Nodup)
    (hseen : ∀ r ∈ l, dedupKey r ∉ seen) :
    dedupLoop l seen = l := by
  induction l generalizing seen with
  | nil => rfl
  | cons a t ih =>
    rw [dedupLoop_cons, if_pos (hpass a (List.mem_cons_self a t)),
      if_neg (hseen a (List.mem_cons_self a t))]
    rw [List.map_cons, List.nodup_cons] at hnodup
    congr 1
    refine ih (fun r hr => hpass r (List.mem_cons_of_mem a hr)) hnodup.2 ?_
    intro r hr hmem
    rcases List.mem_cons.mp hmem with h1 | h1
    · exact hnodup.1 (h1 ▸ List.mem_map_of_mem dedupKey hr)
    · exact hseen r (List.mem_cons_of_mem a hr) h1

/-- C4: the Deduplicator (length filter plus first-100-character lowercase
prefix keying, keeping the first record per key in encounter order) is
idempotent: applying it to its own output returns that output unchanged. -/
theorem C4_dedup_idempotent (l : List ReviewRecord) :
    deduplicate (deduplicate l) = deduplicate l := by
  unfold deduplicate
  exact dedupLoop_fixed (fun r hr => mem_dedupLoop_len hr)
    (dedupLoop_keys l []).1 (by simp)

/-- C10: every record surviving the Deduplicator has a trimmed review_text
strictly longer than twenty characters, and a record whose trimmed text is
exactly twenty characters long is dropped, not kept. -/
theorem C10_dedup_length_filter :
    (∀ (l : List ReviewRecord) (r : ReviewRecord), r ∈ deduplicate l →
      (pystrip r.review_text).length > 20) ∧
    (pystrip rec20.review_text).length = 20 ∧ deduplicate [rec20] = [] :=
  ⟨fun _ _ hr => (mem_dedupLoop_len hr).2, by decide, by decide⟩

/-- C10 witness: a thirty-character record is its own dedup survivor, and
the general bound applies to it. -/
theorem C10_witness :
    rec30 ∈ deduplicate [rec30] ∧ (pystrip rec30.review_text).length > 20 :=
  ⟨by decide, C10_dedup_length_filter.1 [rec30] rec30 (by decide)⟩

/-- C5: two records whose trimmed texts agree on the lowercased first
hundred characters but differ afterward (both past the noise threshold)
collapse to the first record; two records with identical final fifty
characters but different lowercased hundred-character prefixes are both
kept. -/
theorem C5_dedup_prefix_collapse (r1 r2 : ReviewRecord) :
    ((pystrip r1.review_text).length > 20 → (pystrip r2.review_text).length > 20 →
      dedupKey r1 = dedupKey r2 →
      (pystrip r1.review_text).drop 100 ≠ (pystrip r2.review_text).drop 100 →
      deduplicate [r1, r2] = [r1]) ∧
    (pyTakeLast 50 (pystrip r1.review_text) = pyTakeLast 50 (pystrip r2.review_text) →
      dedupKey r1 ≠ dedupKey r2 →
      deduplicate [r1, r2] = [r1, r2]) := by
  constructor
  · intro h1 h2 hkey _hdiff
    have hne1 : pystrip r1.review_text ≠ [] := by
      intro h0; rw [h0] at h1; simp at h1
    have hne2 : pystrip r2.review_text ≠ [] := by
      intro h0; rw [h0] at h2; simp at h2
    unfold deduplicate
    rw [dedupLoop_cons, if_pos ⟨hne1, h1⟩, if_neg (List.not_mem_nil _)]
    rw [dedupLoop_cons, if_pos ⟨hne2, h2⟩, if_pos (by simp [hkey])]
    rfl
  · intro hlast hkey
    have hlen : ((pystrip r1.review_text).drop ((pystrip r1.review_text).length - 50)).length =
        ((pystrip r2.review_text).drop ((pystrip r2.review_text).length - 50)).length :=
      congrArg List.length hlast
    rw [List.length_drop, List.length_drop] at hlen
    have hfull : ¬ ((pystrip r1.review_text).length < 50 ∧ (pystrip r2.review_text).length < 50) := by
      rintro ⟨ha, hb⟩
      have e1 : (pystrip r1.review_text).length - 50 = 0 := by omega
      have e2 : (pystrip r2.review_text).length - 50 = 0 := by omega
      rw [pyTakeLast, pyTakeLast, e1, e2, List.drop_zero, List.drop_zero] at hlast
      exact hkey (by rw [dedupKey, dedupKey, hlast])
    have h50 : 50 ≤ (pystrip r1.review_text).length ∧ 50 ≤ (pystrip r2.review_text).length := by
      omega
    have h1 : (pystrip r1.review_text).length > 20 := by omega
    have h2 : (pystrip r2.review_text).length > 20 := by omega
    have hne1 : pystrip r1.review_text ≠ [] := by
      intro h0; rw [h0] at h1; simp at h1
    have hne2 : pystrip r2.review_text ≠ [] := by
      intro h0; rw [h0] at h2; simp at h2
    unfold deduplicate
    rw [dedupLoop_cons, if_pos ⟨hne1, h1⟩, if_neg (List.not_mem_nil _)]
    rw [dedupLoop_cons, if_pos ⟨hne2, h2⟩,
      if_neg (by simp [List.mem_singleton]; exact fun h => hkey h.symm)]
    rfl

/-- C5 witness: concrete prefix-equal records collapse and concrete
suffix-equal, prefix-distinct records survive together. -/
theorem C5_witness :
    deduplicate [c5_rec1, c5_rec2] = [c5_rec1] ∧
    deduplicate [c5_rec3, c5_rec4] = [c5_rec3, c5_rec4] :=
  ⟨(C5_dedup_prefix_collapse c5_rec1 c5_rec2).1 (by decide) (by decide) (by decide) (by decide),
   (C5_dedup_prefix_collapse c5_rec3 c5_rec4).2 (by decide) (by decide)⟩

/-- C2: the normalized rating, when present, lies in the closed interval
one to five; the normalizer divides the first numeric token by twenty when
it exceeds five, multiplies by five when it is at most one, then clamps;
it is absent exactly when no numeric token exists; and the three concrete
examples evaluate as the specification states. -/
theorem C2_normalize_rating (s : PyStr) :
    (∀ r, _normalize_rating s = some r → 1 ≤ r ∧ r ≤ 5) ∧
    (∀ tok, firstNumericToken s = some tok →
      _normalize_rating s = some (pymax 1 (pymin 5
        (if tokenToRat tok > 5 then tokenToRat tok / 20
         else if tokenToRat tok ≤ 1 then tokenToRat tok * 5
         else tokenToRat tok)))) ∧
    (firstNumericToken s = none ↔ _normalize_rating s = none) ∧
    _normalize_rating ("90".data) = some (9 / 2) ∧
    _normalize_rating ("0.8".data) = some 4 ∧
    _normalize_rating ("3".data) = some 3 := by
  refine ⟨?_, ?_, ?_, by with_unfolding_all rfl, by with_unfolding_all rfl,
    by with_unfolding_all rfl⟩
  · intro r hr
    unfold _normalize_rating at hr
    rcases hft : firstNumericToken s with _ | tok
    · rw [hft] at hr; exact absurd hr (by simp)
    · rw [hft] at hr
      simp only [Option.some.injEq] at hr
      rw [← hr]
      unfold pymax pymin
      split_ifs <;> constructor <;> linarith
  · intro tok htok
    unfold _normalize_rating
    rw [htok]
  · constructor
    · intro h; unfold _normalize_rating; rw [h]
    · intro h
      rcases hft : firstNumericToken s with _ | tok
      · rfl
      · unfold _normalize_rating at h; rw [hft] at h; simp at h

/-- C2 witness: the interval bound applied at the input 90, and absence at
an input with no numeric token. -/
theorem C2_witness :
    (1 ≤ (9 : Rat) / 2 ∧ (9 : Rat) / 2 ≤ 5) ∧ _normalize_rating ("abc".data) = none :=
  ⟨(C2_normalize_rating ("90".data)).1 (9 / 2) (by with_unfolding_all rfl),
   ((C2_normalize_rating ("abc".data)).2.2.1).mp (by decide)⟩

/-- C8: the heuristic classifier accepts a line exactly when it has at
least two keyword matches with at least ten words, or at least one keyword
match with at least twenty words; a marker-less line with exactly two
matches and ten words is accepted, the same signal with nine words is
rejected. -/
theorem C8_is_likely_review (text : PyStr) :
    (_is_likely_review text = true ↔
      (2 ≤ indicator_count text ∧ 10 ≤ wordCount text) ∨
      (1 ≤ indicator_count text ∧ 20 ≤ wordCount text)) ∧
    (findRatingMatch accept_line = none ∧ indicator_count accept_line = 2 ∧
      wordCount accept_line = 10 ∧ _is_likely_review accept_line = true) ∧
    (findRatingMatch reject_line = none ∧ indicator_count reject_line = 2 ∧
      wordCount reject_line = 9 ∧ _is_likely_review reject_line = false) := by
  refine ⟨?_, by decide, by decide⟩
  simp [_is_likely_review]

/-- C8 witness: the characterization applied at the accepted example. -/
theorem C8_witness :
    _is_likely_review accept_line = true ↔
      (2 ≤ indicator_count accept_line ∧ 10 ≤ wordCount accept_line) ∨
      (1 ≤ indicator_count accept_line ∧ 20 ≤ wordCount accept_line) :=
  (C8_is_likely_review accept_line).1

/-- C1 (amended): on the P5 input lines the Review Segmenter emits no
record at all: both rating-marker lines are shorter than ten characters
and are skipped by the length filter before any pattern is tried, and
neither prose line passes the heuristic classifier, so no candidate
record ever starts. -/
theorem C1_p5_input_yields_no_records :
    extract_reviews_from_content p5_content p5_url = [] ∧
    (pystrip ("5 stars".data)).length < 10 ∧
    (pystrip ("2 stars".data)).length < 10 ∧
    _is_likely_review (pystrip ("Great product, love it, would recommend".data)) = false ∧
    _is_likely_review (pystrip ("Terrible, broke immediately, waste of money".data)) = false := by
  refine ⟨by decide, by decide, by decide, by decide, by decide⟩

/-- C1 counterexample: the Review Segmenter does not emit two records on
the P5 input lines. -/
theorem C1_counterexample :
    (extract_reviews_from_content p5_content p5_url).length ≠ 2 := by decide

/-- C3: failing input for the invariant that an emitted review_text is
never empty: on a line where the Rating pattern's lazy capture is
whitespace-only, the buffer is a non-empty whitespace string, passes the
truthiness test, and is emitted with an empty trimmed review_text (the
rating, as always, is normalized into the one-to-five interval). -/
theorem C3_whitespace_buffer_empty_text :
    extract_reviews_from_content c3_content c3_url =
      [{ review_text := [], rating := some 4, reviewer_name := none,
         review_date := none, source_url := c3_url }] ∧
    (extract_reviews_from_content c3_content c3_url).map
      (fun r => (pystrip r.review_text).length) = [0] := by
  refine ⟨by with_unfolding_all rfl, by with_unfolding_all rfl⟩

/-- C7: on the empty record list the Aggregator returns, without raising,
a result with zero totals, zero average, all sentiment percentages zero
and the empty rating summary; and the average rating is zero whenever no
record carries a rating. -/
theorem C7_empty_input_safety (classify : PyStr → Option SentimentResult)
    (oracle : List ReviewRecord → Option Insights) :
    analyze_reviews classify oracle [] =
      ({ total_reviews := 0, average_rating := 0,
         sentiment_distribution := { positive := 0, negative := 0, neutral := 0 },
         key_insights := [], pros := [], cons := [],
         rating_summary := none, recommendations := [] }, []) ∧
    ∀ l : List ReviewRecord, (∀ r ∈ l, r.rating = none) →
      (analyze_reviews classify oracle l).1.average_rating = 0 := by
  constructor
  · rfl
  · intro l hl
    by_cases hl0 : l = []
    · subst hl0; rfl
    · have hrat : (l.map (updateSentiment classify)).filterMap (fun r => r.rating) = [] := by
        rw [List.filterMap_map]
        rw [List.filterMap_eq_nil_iff]
        intro a ha
        simp only [Function.comp_apply, updateSentiment]
        exact hl a ha
      simp only [analyze_reviews, if_neg hl0, hrat]
      norm_num [pyround, roundHalfEven]

/-- C7 witness: the average-rating clause applied to a concrete one-record
list without any rating. -/
theorem C7_witness :
    (analyze_reviews (fun _ => none) (fun _ => none) [c7_rec]).1.average_rating = 0 :=
  (C7_empty_input_safety (fun _ => none) (fun _ => none)).2 [c7_rec] (by decide)

/-- C9 counterexample: analyze_reviews does not leave the input records
unchanged; after the call the first record carries a sentiment_label key
it did not have before. -/
theorem C9_counterexample :
    (analyze_reviews (fun _ => none) (fun _ => none) [c9_rec]).2 ≠ [c9_rec] := by
  intro h
  have h1 : (analyze_reviews (fun _ => none) (fun _ => none) [c9_rec]).2 =
      [updateSentiment (fun _ => none) c9_rec] := by
    simp [analyze_reviews]
  rw [h1] at h
  have h2 : updateSentiment (fun _ => none) c9_rec = c9_rec := by injection h
  have h3 := congrArg ReviewRecord.sentiment_label h2
  simp [updateSentiment, _analyze_sentiment, c9_rec] at h3

/-- C9 (amended): analyze_reviews keeps every pre-existing field of every
input record (text, rating, reviewer, date, source) unchanged, but it
does mutate the input records, adding the sentiment_label and
sentiment_score fields to each of them when the list is non-empty. -/
theorem C9_existing_fields_preserved (classify : PyStr → Option SentimentResult)
    (oracle : List ReviewRecord → Option Insights) (l : List ReviewRecord) :
    (analyze_reviews classify oracle l).2 =
      (if l = [] then l else l.map (updateSentiment classify)) ∧
    ∀ r : ReviewRecord,
      (updateSentiment classify r).review_text = r.review_text ∧
      (updateSentiment classify r).rating = r.rating ∧
      (updateSentiment classify r).reviewer_name = r.reviewer_name ∧
      (updateSentiment classify r).review_date = r.review_date ∧
      (updateSentiment classify r).source_url = r.source_url ∧
      (updateSentiment classify r).sentiment_label =
        some (_analyze_sentiment classify r.review_text).sentiment_label ∧
      (updateSentiment classify r).sentiment_score =
        some (_analyze_sentiment classify r.review_text).sentiment_score := by
  constructor
  · by_cases h : l = [] <;> simp [analyze_reviews, h]
  · intro r
    simp [updateSentiment]

/-- Half-even integer rounding is within one half of its argument. -/
theorem abs_roundHalfEven_sub_le (q : Rat) :
    |((roundHalfEven q : Int) : Rat) - q| ≤ 1 / 2 := by
  have h1 : ((⌊q⌋ : Int) : Rat) ≤ q := Int.floor_le q
  have h2 : q < ((⌊q⌋ : Int) : Rat) + 1 := Int.lt_floor_add_one q
  unfold roundHalfEven
  split_ifs <;> rw [abs_le] <;> constructor <;> push_cast <;> linarith

/-- Decimal rounding is within half a unit in the last decimal place. -/
theorem abs_pyround_sub_le (q : Rat) (n : Nat) :
    |pyround q n - q| ≤ 1 / (2 * (10 : Rat) ^ n) := by
  have hp : (0 : Rat) < (10 : Rat) ^ n := by positivity
  have h := abs_roundHalfEven_sub_le (q * (10 : Rat) ^ n)
  have he : pyround q n - q =
      (((roundHalfEven (q * (10 : Rat) ^ n) : Int) : Rat) - q * (10 : Rat) ^ n) /
        (10 : Rat) ^ n := by
    rw [pyround]
    field_simp
    ring
  rw [he, abs_div, abs_of_pos hp]
  calc |((roundHalfEven (q * (10 : Rat) ^ n) : Int) : Rat) - q * (10 : Rat) ^ n| /
        (10 : Rat) ^ n
      ≤ (1 / 2) / (10 : Rat) ^ n := (div_le_div_iff_of_pos_right hp).mpr h
    _ = 1 / (2 * (10 : Rat) ^ n) := div_div 1 2 _

/-- Rounding to one decimal place moves a number by at most one twentieth. -/
theorem abs_pyround_one (q : Rat) : |pyround q 1 - q| ≤ 1 / 20 := by
  have h := abs_pyround_sub_le q 1
  norm_num at h
  exact h

/-- Three exact percentages summing to one hundred still sum to one
hundred within three tenths after rounding each to one decimal place. -/
theorem three_round_sum (a b c : Rat) (h : a + b + c = 100) :
    |pyround a 1 + pyround b 1 + pyround c 1 - 100| ≤ 3 / 10 := by
  have ha := abs_pyround_one a
  have hb := abs_pyround_one b
  have hc := abs_pyround_one c
  rw [abs_le] at ha hb hc ⊢
  constructor <;> [linarith; linarith]

/-- Five exact percentages summing to one hundred still sum to one hundred
within three tenths after rounding each to one decimal place. -/
theorem five_round_sum (a b c d e : Rat) (h : a + b + c + d + e = 100) :
    |pyround a 1 + pyround b 1 + pyround c 1 + pyround d 1 + pyround e 1 - 100| ≤ 3 / 10 := by
  have ha := abs_pyround_one a
  have hb := abs_pyround_one b
  have hc := abs_pyround_one c
  have hd := abs_pyround_one d
  have he := abs_pyround_one e
  rw [abs_le] at ha hb hc hd he ⊢
  constructor <;> [linarith; linarith]

/-- A list whose members all lie in a three-element set has its length
split by the three counts. -/
theorem count_three_partition {p n u : PyStr} (hpn : p ≠ n) (hpu : p ≠ u) (hnu : n ≠ u)
    (ss : List PyStr) (h : ∀ s ∈ ss, s = p ∨ s = n ∨ s = u) :
    ss.count p + ss.count n + ss.count u = ss.length := by
  induction ss with
  | nil => rfl
  | cons a t ih =>
    have ht : ∀ s ∈ t, s = p ∨ s = n ∨ s = u := fun s hs => h s (List.mem_cons_of_mem a hs)
    have hi := ih ht
    rcases h a (List.mem_cons_self a t) with ha | ha | ha <;> subst ha <;>
      simp [List.count_cons, beq_iff_eq, hpn, hpu, hnu, Ne.symm hpn, Ne.symm hpu,
        Ne.symm hnu] <;> omega

/-- A list of integers lying between one and five has its length split by
the five counts. -/
theorem count_five_partition (xs : List Int) (h : ∀ a ∈ xs, 1 ≤ a ∧ a ≤ 5) :
    xs.count 1 + xs.count 2 + xs.count 3 + xs.count 4 + xs.count 5 = xs.length := by
  induction xs with
  | nil => rfl
  | cons a t ih =>
    have ht : ∀ b ∈ t, 1 ≤ b ∧ b ≤ 5 := fun b hb => h b (List.mem_cons_of_mem a hb)
    have hi := ih ht
    have ha := h a (List.mem_cons_self a t)
    have hcase : a = 1 ∨ a = 2 ∨ a = 3 ∨ a = 4 ∨ a = 5 := by omega
    rcases hcase with h1 | h1 | h1 | h1 | h1 <;> subst h1 <;>
      simp [List.count_cons, beq_iff_eq] <;> omega

/-- C6: when the record list is non-empty and every sentiment label read
by the Aggregator is positive, negative or neutral, the three sentiment
percentages sum to one hundred within plus or minus three tenths; when
the ratings list is non-empty and every rating lies in the closed
interval from one to five, the five star percentages of the rating
summary sum to one hundred within the same tolerance. -/
theorem C6_aggregation_totals (l : List ReviewRecord) (ratings : List Rat) :
    (l ≠ [] →
      (∀ r ∈ l, r.sentiment_label.getD ("neutral".data) = "positive".data ∨
        r.sentiment_label.getD ("neutral".data) = "negative".data ∨
        r.sentiment_label.getD ("neutral".data) = "neutral".data) →
      |(_calculate_sentiment_distribution l).positive +
        (_calculate_sentiment_distribution l).negative +
        (_calculate_sentiment_distribution l).neutral - 100| ≤ 3 / 10) ∧
    (ratings ≠ [] → (∀ x ∈ ratings, 1 ≤ x ∧ x ≤ 5) →
      ∃ s, _calculate_rating_summary ratings = some s ∧
        |s.five_star + s.four_star + s.three_star + s.two_star + s.one_star - 100| ≤ 3 / 10) := by
  constructor
  · intro hne hlab
    have hlen : 0 < (l.map (fun r => r.sentiment_label.getD ("neutral".data))).length := by
      simp only [List.length_map]
      exact List.length_pos.mpr hne
    simp only [_calculate_sentiment_distribution, if_pos hlen]
    apply three_round_sum
    set ss := l.map (fun r => r.sentiment_label.getD ("neutral".data)) with hss
    have hmem : ∀ s ∈ ss, s = "positive".data ∨ s = "negative".data ∨ s = "neutral".data := by
      intro s hs
      rcases List.mem_map.mp hs with ⟨r, hr, rfl⟩
      exact hlab r hr
    have hcnt := count_three_partition (by decide) (by decide) (by decide) ss hmem
    have hT : ((ss.length : Rat)) ≠ 0 := by
      rw [Nat.cast_ne_zero]
      omega
    have hc : (ss.count ("positive".data) : Rat) + (ss.count ("negative".data) : Rat) +
        (ss.count ("neutral".data) : Rat) = (ss.length : Rat) := by
      exact_mod_cast hcnt
    field_simp
    linarith
  · intro hne hb
    have hfil : ratings.filter (fun r => decide (r ≠ 0)) = ratings := by
      rw [List.filter_eq_self]
      intro a ha
      rw [decide_eq_true_eq]
      have h1 := (hb a ha).1
      intro h0
      rw [h0] at h1
      norm_num at h1
    have hmap : ∀ x ∈ ratings.map pyint, 1 ≤ x ∧ x ≤ 5 := by
      intro x hx
      rcases List.mem_map.mp hx with ⟨r, hr, rfl⟩
      rcases hb r hr with ⟨h1, h5⟩
      have h0 : ¬ r < 0 := by linarith
      unfold pyint
      rw [if_neg h0]
      refine ⟨Int.le_floor.mpr (by exact_mod_cast h1), ?_⟩
      have hf : ((⌊r⌋ : Int) : Rat) ≤ r := Int.floor_le r
      have h5f : ((⌊r⌋ : Int) : Rat) ≤ 5 := le_trans hf h5
      exact_mod_cast h5f
    have hcnt := count_five_partition (ratings.map pyint) hmap
    rw [List.length_map] at hcnt
    simp only [_calculate_rating_summary, if_neg hne, hfil]
    refine ⟨_, rfl, ?_⟩
    apply five_round_sum
    have hT : ((ratings.length : Rat)) ≠ 0 := by
      rw [Nat.cast_ne_zero]
      intro h0
      exact hne (List.length_eq_zero.mp h0)
    have hcq : ((ratings.map pyint).count 5 : Rat) + ((ratings.map pyint).count 4 : Rat) +
        ((ratings.map pyint).count 3 : Rat) + ((ratings.map pyint).count 2 : Rat) +
        ((ratings.map pyint).count 1 : Rat) = (ratings.length : Rat) := by
      have : (ratings.map pyint).count 5 + (ratings.map pyint).count 4 +
          (ratings.map pyint).count 3 + (ratings.map pyint).count 2 +
          (ratings.map pyint).count 1 = ratings.length := by omega
      exact_mod_cast this
    field_simp
    linarith

/-- C6 witness: the two clauses applied to a one-record positive list and
the one-element rating list holding four. -/
theorem C6_witness :
    (|(_calculate_sentiment_distribution [c6_rec]).positive +
       (_calculate_sentiment_distribution [c6_rec]).negative +
       (_calculate_sentiment_distribution [c6_rec]).neutral - 100| ≤ 3 / 10) ∧
    (∃ s, _calculate_rating_summary [(4 : Rat)] = some s ∧
      |s.five_star + s.four_star + s.three_star + s.two_star + s.one_star - 100| ≤ 3 / 10) :=
  ⟨(C6_aggregation_totals [c6_rec] [(4 : Rat)]).1 (by decide) (by decide),
   (C6_aggregation_totals [c6_rec] [(4 : Rat)]).2 (by decide) (by decide)⟩
